import Mathlib

/-!
Shallow embedding of `src/youtube-downloader.py` (agguro/youtube-download).

The script's original logic is: reading a link file (skipping blank and
comment lines), first-occurrence deduplication of URLs, directory setup,
log-file selection and session-header writes, a progress callback that
counts "finished" events and appends to the log, and a two-pass download
stage (audio, then video) whose call results drive a failure counter and
the process exit code.

External effects are modelled explicitly: the filesystem is a function
from paths to optional file contents, the external download library's
behaviour is an oracle (a list of progress events plus a return code or
an exception), and exceptions raised while appending to the log file are
an oracle indexed by the number of write attempts so far.
-/

namespace YoutubeDownload

/-! ## URL deduplication (main, lines 216-217)

Python: `seen = set(); urls = [u for u in urls if not (u in seen or seen.add(u))]`.
The comprehension keeps a URL exactly when it has not been seen before,
adding it to `seen` as a side effect; `dedupeAux` threads `seen`
explicitly (a list used only through membership). -/

def dedupeAux (seen : List String) : List String → List String
  | [] => []
  | u :: rest =>
    if u ∈ seen then dedupeAux seen rest
    else u :: dedupeAux (u :: seen) rest

def dedupe (urls : List String) : List String := dedupeAux [] urls

/-- Spec-side characterisation of first-occurrence deduplication: keep each
element at its first occurrence and drop the later duplicates. -/
def keepFirsts : List String → List String
  | [] => []
  | u :: rest => u :: (keepFirsts rest).filter (fun v => v ≠ u)

/-! ## Link Reader (`read_links_from_file`, lines 48-60)

Python strips each line and skips it when the result is empty or starts
with `#`; kept lines are appended (in their stripped form). The file body
is modelled as the list of its lines (newline terminators included, as
Python's file iteration yields them; `strip` removes them either way).
Python's `str.strip` / `str.rstrip` / `str.startswith` are modelled over
the character list of the string. -/

/-- Python `str.strip()`: drop leading and trailing whitespace. -/
def pyStrip (s : String) : String :=
  String.mk
    (((s.data.dropWhile Char.isWhitespace).reverse.dropWhile
        Char.isWhitespace).reverse)

/-- Python `str.rstrip()`: drop trailing whitespace. -/
def pyRstrip (s : String) : String :=
  String.mk ((s.data.reverse.dropWhile Char.isWhitespace).reverse)

/-- Python `s.startswith("#")`. -/
def startsWithHash (s : String) : Bool :=
  match s.data with
  | [] => false
  | c :: _ => c == '#'

/-- The loop body of `read_links_from_file`: skip the line when its
stripped form is empty or starts with the comment marker, otherwise
append the stripped form. -/
def linkStep (links : List String) (line : String) : List String :=
  let s := pyStrip line
  if s == "" || startsWithHash s then links else links ++ [s]

def read_links_lines (lines : List String) : List String :=
  lines.foldl linkStep []

/-- The keep-condition of the Link Reader, on an already-stripped line. -/
def keepLine (s : String) : Bool := !(s == "" || startsWithHash s)

/-- First non-whitespace character of a line, if any. -/
def firstNonWs (line : String) : Option Char :=
  match line.data.dropWhile Char.isWhitespace with
  | [] => none
  | c :: _ => some c

/-- Spec-side predicate, following the claim's words: a line is kept when
it is non-empty after trimming and its first non-whitespace character is
not the comment marker. -/
def specLineKeeps (line : String) : Bool :=
  !(pyStrip line == "") && !(firstNonWs line == some '#')

/-! ## Log file and progress hook (`write_log` lines 82-90, `_on_progress`
lines 93-99)

The log file is modelled as its path (when `logfile_path` is set) together
with the lines this session appended. Exceptions raised by the
open/write inside `write_log`'s `try` are an oracle `wlExc` indexed by
the number of write attempts made so far; the `except Exception: pass`
means a raising attempt leaves the file contents unchanged. -/

structure LogState where
  path : Option String
  lines : List String
  writes : Nat
deriving Repr, DecidableEq

/-- The body of `write_log`'s `try` block: opening and writing may raise
(oracle `wlExc`); on success the rstripped line is appended. -/
def write_log_attempt (wlExc : Nat → Bool) (ls : LogState) (line : String) :
    Except String LogState :=
  if wlExc ls.writes then Except.error "io error"
  else Except.ok
    { ls with writes := ls.writes + 1, lines := ls.lines ++ [pyRstrip line] }

/-- `write_log`: returns immediately when no log path is set; otherwise
attempts the append and swallows any exception. -/
def write_log (wlExc : Nat → Bool) (ls : LogState) (line : String) : LogState :=
  match ls.path with
  | none => ls
  | some _ =>
    match write_log_attempt wlExc ls line with
    | Except.ok ls' => ls'
    | Except.error _ => { ls with writes := ls.writes + 1 }

/-- A progress event delivered by the external library to the hook: its
`status` field, and the `filename` / `info_dict._filename` entries. -/
structure Event where
  status : String
  filename : Option String
  infoFilename : Option String
deriving Repr, DecidableEq

/-- Python's `a or b` on two optional strings (`None` and `""` are falsy). -/
def pyOr (a b : Option String) : Option String :=
  match a with
  | some s => if s == "" then b else some s
  | none => b

/-- Rendering of the resolved filename inside the f-string (`None` when
both lookups are falsy and the second is `None`). -/
def fnString : Option String → String
  | some s => s
  | none => "None"

/-- The message `_on_progress` formats on a finished event, with `done`
already incremented. -/
def finishMsg (done total : Nat) (ev : Event) : String :=
  "(" ++ toString done ++ "/" ++ toString total ++ ") ✓ Finished: " ++
    fnString (pyOr ev.filename ev.infoFilename)

inductive MediaKind where
  | audio
  | video
deriving Repr, DecidableEq

/-- Result of one `ydl.download(urls)` call: a return code, or a raised
exception with its message. -/
inductive CallResult where
  | ret (n : Int)
  | exc (msg : String)
deriving Repr, DecidableEq

/-- Whether a call result is counted as a failure by `main` (non-zero
return, or an exception). -/
def callFailed : CallResult → Bool
  | CallResult.ret n => n != 0
  | CallResult.exc _ => true

/-- State threaded through the download stage: the counters dictionary,
the exit code, stdout/stderr transcripts, the log, and traces of which
option dictionaries were built and which driver calls were made. -/
structure DLState where
  done : Nat
  failed : Nat
  exit_code : Nat
  total : Nat
  stdout : List String
  stderr : List String
  log : LogState
  configs : List MediaKind
  calls : List MediaKind
deriving Repr, DecidableEq

/-- `_on_progress`: on a "finished" event, increment `done`, print the
formatted message and append it to the log; otherwise do nothing. -/
def on_progress (wlExc : Nat → Bool) (s : DLState) (ev : Event) : DLState :=
  if ev.status == "finished" then
    let msg := finishMsg (s.done + 1) s.total ev
    { s with done := s.done + 1,
             stdout := s.stdout ++ [msg],
             log := write_log wlExc s.log msg }
  else s

/-- The progress events fired during one driver call, in order. -/
def processEvents (wlExc : Nat → Bool) (s : DLState) (evs : List Event) :
    DLState :=
  evs.foldl (on_progress wlExc) s

def kindLabel : MediaKind → String
  | MediaKind.audio => "AUDIO"
  | MediaKind.video => "VIDEO"

/-- One media-kind pass of `main` (lines 244-272): print the banner, build
the option dictionary, call `ydl.download(urls)` (during which the
progress hook fires on `events`), then interpret the result: a non-zero
return or an exception increments `failed` and sets the exit code to 1. -/
def driveKind (wlExc : Nat → Bool) (k : MediaKind) (dir : String)
    (nUrls : Nat) (events : List Event) (res : CallResult) (s : DLState) :
    DLState :=
  let s := { s with
    stdout := s.stdout ++
      ["[*] Download " ++ kindLabel k ++ " → " ++ dir ++ " (" ++
        toString nUrls ++ " bestanden)"],
    configs := s.configs ++ [k],
    calls := s.calls ++ [k] }
  let s := processEvents wlExc s events
  match res with
  | CallResult.ret n =>
    if n != 0 then { s with failed := s.failed + 1, exit_code := 1 } else s
  | CallResult.exc m =>
    { s with
      stderr := s.stderr ++ ["[" ++ kindLabel k ++ "] Fout: " ++ m],
      failed := s.failed + 1,
      exit_code := 1 }

/-- The download stage of `main`: the audio pass when audio is wanted,
then the video pass when video is wanted, sequentially. -/
def downloadStage (wlExc : Nat → Bool) (wantA wantV : Bool)
    (musicDir videoDir : String) (nUrls : Nat) (aevs vevs : List Event)
    (ar vr : CallResult) (s : DLState) : DLState :=
  let s1 := if wantA then driveKind wlExc MediaKind.audio musicDir nUrls aevs ar s else s
  if wantV then driveKind wlExc MediaKind.video videoDir nUrls vevs vr s1 else s1

/-! ## `main` (lines 172-291)

The parsed arguments are modelled post-`argparse` (`--video-dir` /
`--music-dir` already defaulted and tilde-expanded). The filesystem is a
function from paths to the optional list of lines of the file at that
path; the set of directories that exist is a list of paths. -/

structure Args where
  video : Bool
  audio : Bool
  file : Option String
  video_dir : String
  music_dir : String
  allow_playlists : Bool
  hard_exit : Bool
  urls : List String
deriving Repr

def want_video (a : Args) : Bool := a.video || (!a.video && !a.audio)

def want_audio (a : Args) : Bool := a.audio || (!a.video && !a.audio)

/-- `Path.mkdir(parents=True, exist_ok=True)`: no error when the directory
already exists; afterwards the directory exists. -/
def mkdir_p (dirs : List String) (d : String) : List String :=
  if d ∈ dirs then dirs else dirs ++ [d]

/-- `ensure_dirs` (lines 63-65): create both directories. -/
def ensure_dirs (dirs : List String) (video_dir music_dir : String) :
    List String :=
  mkdir_p (mkdir_p dirs video_dir) music_dir

def pathJoin (dir name : String) : String := dir ++ "/" ++ name

/-- Observable outcome of one run of `main`. -/
structure Trace where
  exitCode : Nat
  helpPrinted : Bool
  stdout : List String
  stderr : List String
  created : List String
  configs : List MediaKind
  calls : List MediaKind
  logPath : Option String
  logLines : List String
  done : Nat
  failed : Nat
  total : Nat
  reachedDownload : Bool
deriving Repr

/-- Link collection (lines 210-212): `read_links_from_file` exits with
status 1 and a message on stderr when the file does not exist. -/
def collectLinks (fs : String → Option (List String)) (a : Args) :
    Except String (List String) :=
  match a.file with
  | none => Except.ok []
  | some p =>
    match fs p with
    | none => Except.error ("[!] Bestand niet gevonden: " ++ p)
    | some fileLines => Except.ok (read_links_lines fileLines)

/-- The trace of a run aborted by `sys.exit(1)` inside
`read_links_from_file`. -/
def fileErrorTrace (dirs0 : List String) (msg : String) : Trace :=
  { exitCode := 1, helpPrinted := false, stdout := [], stderr := [msg],
    created := dirs0, configs := [], calls := [], logPath := none,
    logLines := [], done := 0, failed := 0, total := 0,
    reachedDownload := false }

/-- The trace of a run aborted by `sys.exit(2)` because the deduplicated
URL list is empty (lines 219-222): message on stderr, help printed. -/
def noUrlsTrace (dirs0 : List String) : Trace :=
  { exitCode := 2, helpPrinted := true, stdout := [],
    stderr := ["[!] Geen links opgegeven. Gebruik -f / pad/naar/links.txt of geef URL(s) mee op de commandline."],
    created := dirs0, configs := [], calls := [], logPath := none,
    logLines := [], done := 0, failed := 0, total := 0,
    reachedDownload := false }

/-- The part of `main` after the URL list is known non-empty (lines
224-291): set the total, create the directories, choose the log path
(video directory when video is wanted, else music directory), write the
session header and URL count, warn when ffmpeg is missing, run the
download stage, print and log the summary, and exit with the
accumulated exit code. -/
def mainDownload (a : Args) (urls : List String) (dirs0 : List String)
    (ffmpeg : Bool) (now : String) (wlExc : Nat → Bool)
    (aevs vevs : List Event) (ar vr : CallResult) : Trace :=
  let total := urls.length
  let created := ensure_dirs dirs0 a.video_dir a.music_dir
  let logPath : Option String :=
    if want_video a then some (pathJoin a.video_dir "download_log.txt")
    else if want_audio a then some (pathJoin a.music_dir "download_log.txt")
    else none
  let ls0 : LogState := { path := logPath, lines := [], writes := 0 }
  let ls1 := write_log wlExc ls0 ("\n=== Session " ++ now ++ " ===")
  let ls2 := write_log wlExc ls1 ("URLs: " ++ toString total)
  let ffWarn : List String :=
    if (want_audio a || want_video a) && !ffmpeg then
      ["[!] ffmpeg niet gevonden. Installeer ffmpeg voor audio-extractie en muxen (bijv. apt install ffmpeg)."]
    else []
  let s0 : DLState :=
    { done := 0, failed := 0, exit_code := 0, total := total, stdout := [],
      stderr := ffWarn, log := ls2, configs := [], calls := [] }
  let s1 := downloadStage wlExc (want_audio a) (want_video a) a.music_dir
    a.video_dir total aevs vevs ar vr s0
  let summary :=
    "\n✅ Klaar: " ++ toString s1.done ++ " gelukt, ❌ " ++
      toString s1.failed ++ " mislukt."
  let lsF := write_log wlExc s1.log
    ("Done: " ++ toString s1.done ++ " ok, " ++ toString s1.failed ++ " failed")
  { exitCode := s1.exit_code, helpPrinted := false,
    stdout := s1.stdout ++ [summary], stderr := s1.stderr,
    created := created, configs := s1.configs, calls := s1.calls,
    logPath := lsF.path, logLines := lsF.lines, done := s1.done,
    failed := s1.failed, total := total, reachedDownload := true }

/-- One run of `main` (auto-update disabled, as by default): collect the
links from the optional file and the positional arguments, deduplicate,
and either exit early (missing file: status 1; no URLs: status 2 with
help) or perform the download stage. -/
def mainRun (fs : String → Option (List String)) (dirs0 : List String)
    (a : Args) (ffmpeg : Bool) (now : String) (wlExc : Nat → Bool)
    (aevs vevs : List Event) (ar vr : CallResult) : Trace :=
  match collectLinks fs a with
  | Except.error msg => fileErrorTrace dirs0 msg
  | Except.ok fileLinks =>
    let urls := dedupe (fileLinks ++ a.urls)
    if urls.isEmpty then noUrlsTrace dirs0
    else mainDownload a urls dirs0 ffmpeg now wlExc aevs vevs ar vr

/-- Number of events with status "finished" in a list. -/
def countFinished (evs : List Event) : Nat :=
  (evs.filter (fun e => e.status == "finished")).length

/-! ## Concrete scenarios used to instantiate the theorems -/

/-- A progress event with status "finished" and the given filename. -/
def finEv (fn : String) : Event :=
  { status := "finished", filename := some fn, infoFilename := none }

/-- A filesystem with no readable files. -/
def noFs : String → Option (List String) := fun _ => none

/-- The oracle under which no log write raises. -/
def noExc : Nat → Bool := fun _ => false

/-- Arguments requesting both media kinds for two URLs. -/
def argsBoth : Args :=
  { video := true, audio := true, file := none, video_dir := "/v",
    music_dir := "/m", allow_playlists := false, hard_exit := false,
    urls := ["u1", "u2"] }

/-- Arguments requesting audio only. -/
def argsAudioOnly : Args :=
  { video := false, audio := true, file := none, video_dir := "/v",
    music_dir := "/m", allow_playlists := false, hard_exit := false,
    urls := ["u1"] }

/-! ## Deduplication lemmas -/

theorem dedupeAux_sublist (l : List String) :
    ∀ seen, List.Sublist (dedupeAux seen l) l := by
  induction l with
  | nil => intro seen; simp [dedupeAux]
  | cons u rest ih =>
    intro seen
    by_cases h : u ∈ seen
    · simpa [dedupeAux, h] using (ih seen).cons u
    · simpa [dedupeAux, h] using (ih (u :: seen)).cons₂ u

theorem mem_dedupeAux (u : String) (l : List String) :
    ∀ seen, u ∈ dedupeAux seen l ↔ u ∉ seen ∧ u ∈ l := by
  induction l with
  | nil => intro seen; simp [dedupeAux]
  | cons v rest ih =>
    intro seen
    by_cases hv : v ∈ seen
    · rw [dedupeAux, if_pos hv, ih seen]
      constructor
      · rintro ⟨h1, h2⟩; exact ⟨h1, List.mem_cons_of_mem v h2⟩
      · rintro ⟨h1, h2⟩
        rcases List.mem_cons.mp h2 with h3 | h3
        · exact absurd (h3 ▸ hv) h1
        · exact ⟨h1, h3⟩
    · rw [dedupeAux, if_neg hv]
      by_cases huv : u = v
      · subst huv
        simp [hv]
      · rw [List.mem_cons]
        simp only [huv, false_or]
        rw [ih (v :: seen)]
        simp [List.mem_cons, huv]

theorem nodup_dedupeAux (l : List String) :
    ∀ seen, (dedupeAux seen l).Nodup := by
  induction l with
  | nil => intro seen; simp [dedupeAux]
  | cons v rest ih =>
    intro seen
    by_cases hv : v ∈ seen
    · rw [dedupeAux, if_pos hv]; exact ih seen
    · rw [dedupeAux, if_neg hv]
      refine List.nodup_cons.mpr ⟨?_, ih (v :: seen)⟩
      intro hmem
      exact ((mem_dedupeAux v rest (v :: seen)).mp hmem).1 (List.mem_cons_self v seen)

theorem count_dedupe (u : String) (l : List String) :
    (dedupe l).count u = if u ∈ l then 1 else 0 := by
  by_cases h : u ∈ l
  · rw [if_pos h]
    refine List.count_eq_one_of_mem (nodup_dedupeAux l []) ?_
    exact (mem_dedupeAux u l []).mpr ⟨List.not_mem_nil u, h⟩
  · rw [if_neg h]
    refine List.count_eq_zero_of_not_mem ?_
    intro hmem
    exact h ((mem_dedupeAux u l []).mp hmem).2

theorem dedupeAux_eq_keepFirsts_filter (l : List String) :
    ∀ seen, dedupeAux seen l =
      (keepFirsts l).filter (fun v => decide (v ∉ seen)) := by
  induction l with
  | nil => intro seen; simp [dedupeAux, keepFirsts]
  | cons v rest ih =>
    intro seen
    by_cases hv : v ∈ seen
    · rw [dedupeAux, if_pos hv, ih seen, keepFirsts]
      rw [List.filter_cons]
      simp only [hv]
      rw [if_neg (by simp)]
      rw [List.filter_filter]
      refine (List.filter_congr ?_).symm
      intro x hx
      by_cases hxs : x ∈ seen
      · simp [hxs]
      · have hxv : x ≠ v := fun h => hxs (h ▸ hv)
        simp [hxs, hxv]
    · rw [dedupeAux, if_neg hv, ih (v :: seen), keepFirsts]
      rw [List.filter_cons]
      rw [if_pos (by simp [hv])]
      rw [List.filter_filter]
      congr 1
      refine List.filter_congr ?_
      intro x hx
      by_cases hxv : x = v
      · subst hxv; simp
      · simp [List.mem_cons, hxv]

theorem dedupe_eq_keepFirsts (l : List String) : dedupe l = keepFirsts l := by
  rw [dedupe, dedupeAux_eq_keepFirsts_filter l []]
  simp

/-! ## Link Reader lemmas -/

theorem linkStep_append (acc : List String) (line : String) :
    linkStep acc line = acc ++ linkStep [] line := by
  by_cases h : (pyStrip line == "" || startsWithHash (pyStrip line)) = true
  · simp [linkStep, h]
  · simp [linkStep, h]

theorem foldl_linkStep_append (lines : List String) :
    ∀ acc, lines.foldl linkStep acc = acc ++ lines.foldl linkStep [] := by
  induction lines with
  | nil => intro acc; simp
  | cons l rest ih =>
    intro acc
    rw [List.foldl_cons, List.foldl_cons, ih (linkStep acc l), ih (linkStep [] l),
      linkStep_append acc l, List.append_assoc]

theorem read_links_lines_eq_filter_trimmed (lines : List String) :
    read_links_lines lines = (lines.map pyStrip).filter keepLine := by
  induction lines with
  | nil => rfl
  | cons l rest ih =>
    rw [read_links_lines, List.foldl_cons, foldl_linkStep_append,
      ← read_links_lines, ih, List.map_cons, List.filter_cons]
    by_cases h : (pyStrip l == "" || startsWithHash (pyStrip l)) = true
    · simp [linkStep, keepLine, h]
    · simp [linkStep, keepLine, h]

theorem dropWhile_head_false (p : Char → Bool) (l : List Char) :
    ∀ c cs, l.dropWhile p = c :: cs → p c = false := by
  induction l with
  | nil => intro c cs h; simp [List.dropWhile] at h
  | cons x xs ih =>
    intro c cs h
    rw [List.dropWhile_cons] at h
    by_cases hx : p x = true
    · rw [if_pos hx] at h; exact ih c cs h
    · rw [if_neg hx] at h
      cases h
      simpa using hx

theorem dropWhile_append_last (p : Char → Bool) (c : Char) (hc : p c = false) :
    ∀ l : List Char, ∃ ds, (l ++ [c]).dropWhile p = ds ++ [c] := by
  intro l
  induction l with
  | nil => exact ⟨[], by simp [List.dropWhile_cons, hc]⟩
  | cons x xs ih =>
    by_cases hx : p x = true
    · obtain ⟨ds, hds⟩ := ih
      exact ⟨ds, by simpa [List.dropWhile_cons, hx] using hds⟩
    · exact ⟨x :: xs, by simp [List.dropWhile_cons, hx]⟩

/-- The code's keep-condition applied to the stripped line agrees with the
spec's first-non-whitespace-character reading of the same line. -/
theorem specLineKeeps_eq_keepLine_strip (line : String) :
    specLineKeeps line = keepLine (pyStrip line) := by
  rcases ht : line.data.dropWhile Char.isWhitespace with _ | ⟨c, cs⟩
  · have hstrip : pyStrip line = "" := by
      rw [pyStrip, ht]
      rfl
    simp [specLineKeeps, keepLine, hstrip, firstNonWs, ht]
  · have hc : Char.isWhitespace c = false :=
      dropWhile_head_false _ _ c cs ht
    obtain ⟨ds, hds⟩ := dropWhile_append_last Char.isWhitespace c hc cs.reverse
    have hstrip : pyStrip line = String.mk (c :: ds.reverse) := by
      rw [pyStrip, ht]
      simp [hds]
    have hne : (String.mk (c :: ds.reverse) == "") = false := by
      rw [beq_eq_false_iff_ne]
      intro h
      have := congrArg String.data h
      simp at this
    rw [specLineKeeps, keepLine, hstrip, hne, firstNonWs, ht]
    simp [startsWithHash]

theorem read_links_lines_eq_spec_filter (lines : List String) :
    read_links_lines lines = (lines.filter specLineKeeps).map pyStrip := by
  rw [read_links_lines_eq_filter_trimmed, List.filter_map]
  congr 1
  refine List.filter_congr ?_
  intro x hx
  exact (specLineKeeps_eq_keepLine_strip x).symm

/-! ## Claim theorems: URL intake -/

/-- C1: the deduplicated URL list (file-sourced URLs followed by
command-line URLs) contains each distinct URL exactly once, in order of
first appearance, with order otherwise preserved (it is a sublist of the
input equal to the keep-the-first-occurrence reference), and on the
example input it gives the example output. -/
theorem dedupe_first_occurrence (fileUrls cmdUrls : List String) :
    (∀ u, (dedupe (fileUrls ++ cmdUrls)).count u =
        if u ∈ fileUrls ++ cmdUrls then 1 else 0)
    ∧ List.Sublist (dedupe (fileUrls ++ cmdUrls)) (fileUrls ++ cmdUrls)
    ∧ dedupe (fileUrls ++ cmdUrls) = keepFirsts (fileUrls ++ cmdUrls)
    ∧ dedupe ["a", "b", "a", "c", "b"] = ["a", "b", "c"] := by
  refine ⟨fun u => count_dedupe u _, ?_, dedupe_eq_keepFirsts _, by decide⟩
  exact dedupeAux_sublist (fileUrls ++ cmdUrls) []

/-- C2, counterexample: the Link Reader does not return the lines
themselves; on the file consisting of the single line " http://x " it
returns the stripped form "http://x", not the line. -/
theorem read_links_not_the_literal_lines :
    ¬ (∀ lines : List String,
        read_links_lines lines = lines.filter specLineKeeps) := by
  intro h
  have h2 := h [" http://x "]
  revert h2
  decide

/-- C2, amended: the Link Reader returns exactly the trimmed forms of the
lines that are non-empty after trimming whitespace and whose first
non-whitespace character is not the comment marker, in file order; on the
example file it yields exactly the two URLs. -/
theorem read_links_spec (lines : List String) :
    read_links_lines lines = (lines.filter specLineKeeps).map pyStrip
    ∧ read_links_lines ["  \n", "# comment\n", "http://x\n", "\n", "http://y\n"]
        = ["http://x", "http://y"] :=
  ⟨read_links_lines_eq_spec_filter lines, by decide⟩

/-! ## Log and progress-hook lemmas -/

theorem write_log_path (wlExc : Nat → Bool) (ls : LogState) (line : String) :
    (write_log wlExc ls line).path = ls.path := by
  rcases h : ls.path with _ | p
  · simp [write_log, h]
  · by_cases hw : wlExc ls.writes = true
    · simp [write_log, write_log_attempt, h, hw]
    · simp [write_log, write_log_attempt, h, hw]

theorem write_log_lines_extend (wlExc : Nat → Bool) (ls : LogState)
    (line : String) :
    ∃ ext, (write_log wlExc ls line).lines = ls.lines ++ ext := by
  rcases h : ls.path with _ | p
  · exact ⟨[], by simp [write_log, h]⟩
  · by_cases hw : wlExc ls.writes = true
    · exact ⟨[], by simp [write_log, write_log_attempt, h, hw]⟩
    · exact ⟨[pyRstrip line], by simp [write_log, write_log_attempt, h, hw]⟩

theorem write_log_lines (wlExc : Nat → Bool) (ls : LogState) (line : String) :
    (write_log wlExc ls line).lines = ls.lines ++
      (if (ls.path.isSome && !wlExc ls.writes) = true
       then [pyRstrip line] else []) := by
  rcases h : ls.path with _ | p
  · simp [write_log, h]
  · by_cases hw : wlExc ls.writes = true <;>
      simp [write_log, write_log_attempt, h, hw]

theorem on_progress_exit (wlExc : Nat → Bool) (s : DLState) (ev : Event) :
    (on_progress wlExc s ev).exit_code = s.exit_code := by
  by_cases h : (ev.status == "finished") = true <;> simp [on_progress, h]

theorem on_progress_failed (wlExc : Nat → Bool) (s : DLState) (ev : Event) :
    (on_progress wlExc s ev).failed = s.failed := by
  by_cases h : (ev.status == "finished") = true <;> simp [on_progress, h]

theorem on_progress_calls (wlExc : Nat → Bool) (s : DLState) (ev : Event) :
    (on_progress wlExc s ev).calls = s.calls := by
  by_cases h : (ev.status == "finished") = true <;> simp [on_progress, h]

theorem on_progress_configs (wlExc : Nat → Bool) (s : DLState) (ev : Event) :
    (on_progress wlExc s ev).configs = s.configs := by
  by_cases h : (ev.status == "finished") = true <;> simp [on_progress, h]

theorem on_progress_total (wlExc : Nat → Bool) (s : DLState) (ev : Event) :
    (on_progress wlExc s ev).total = s.total := by
  by_cases h : (ev.status == "finished") = true <;> simp [on_progress, h]

theorem on_progress_stderr (wlExc : Nat → Bool) (s : DLState) (ev : Event) :
    (on_progress wlExc s ev).stderr = s.stderr := by
  by_cases h : (ev.status == "finished") = true <;> simp [on_progress, h]

theorem on_progress_log_path (wlExc : Nat → Bool) (s : DLState) (ev : Event) :
    (on_progress wlExc s ev).log.path = s.log.path := by
  by_cases h : (ev.status == "finished") = true <;>
    simp [on_progress, h, write_log_path]

theorem on_progress_log_lines_extend (wlExc : Nat → Bool) (s : DLState)
    (ev : Event) :
    ∃ ext, (on_progress wlExc s ev).log.lines = s.log.lines ++ ext := by
  by_cases h : (ev.status == "finished") = true
  · simp only [on_progress, h, if_true]
    exact write_log_lines_extend wlExc s.log _
  · exact ⟨[], by simp [on_progress, h]⟩

theorem on_progress_done (wlExc : Nat → Bool) (s : DLState) (ev : Event) :
    (on_progress wlExc s ev).done =
      s.done + (if (ev.status == "finished") = true then 1 else 0) := by
  by_cases h : (ev.status == "finished") = true <;> simp [on_progress, h]

theorem countFinished_cons (e : Event) (rest : List Event) :
    countFinished (e :: rest) =
      (if (e.status == "finished") = true then 1 else 0) + countFinished rest := by
  by_cases h : (e.status == "finished") = true <;>
    simp [countFinished, List.filter_cons, h, Nat.add_comm]

theorem processEvents_cons (wlExc : Nat → Bool) (s : DLState) (e : Event)
    (rest : List Event) :
    processEvents wlExc s (e :: rest) =
      processEvents wlExc (on_progress wlExc s e) rest := rfl

theorem processEvents_exit (wlExc : Nat → Bool) (evs : List Event) :
    ∀ s, (processEvents wlExc s evs).exit_code = s.exit_code := by
  induction evs with
  | nil => intro s; rfl
  | cons e rest ih =>
    intro s
    rw [processEvents_cons, ih, on_progress_exit]

theorem processEvents_failed (wlExc : Nat → Bool) (evs : List Event) :
    ∀ s, (processEvents wlExc s evs).failed = s.failed := by
  induction evs with
  | nil => intro s; rfl
  | cons e rest ih =>
    intro s
    rw [processEvents_cons, ih, on_progress_failed]

theorem processEvents_calls (wlExc : Nat → Bool) (evs : List Event) :
    ∀ s, (processEvents wlExc s evs).calls = s.calls := by
  induction evs with
  | nil => intro s; rfl
  | cons e rest ih =>
    intro s
    rw [processEvents_cons, ih, on_progress_calls]

theorem processEvents_configs (wlExc : Nat → Bool) (evs : List Event) :
    ∀ s, (processEvents wlExc s evs).configs = s.configs := by
  induction evs with
  | nil => intro s; rfl
  | cons e rest ih =>
    intro s
    rw [processEvents_cons, ih, on_progress_configs]

theorem processEvents_stderr (wlExc : Nat → Bool) (evs : List Event) :
    ∀ s, (processEvents wlExc s evs).stderr = s.stderr := by
  induction evs with
  | nil => intro s; rfl
  | cons e rest ih =>
    intro s
    rw [processEvents_cons, ih, on_progress_stderr]

theorem processEvents_log_path (wlExc : Nat → Bool) (evs : List Event) :
    ∀ s, (processEvents wlExc s evs).log.path = s.log.path := by
  induction evs with
  | nil => intro s; rfl
  | cons e rest ih =>
    intro s
    rw [processEvents_cons, ih, on_progress_log_path]

theorem processEvents_log_lines_extend (wlExc : Nat → Bool)
    (evs : List Event) :
    ∀ s, ∃ ext, (processEvents wlExc s evs).log.lines = s.log.lines ++ ext := by
  induction evs with
  | nil => intro s; exact ⟨[], by simp [processEvents]⟩
  | cons e rest ih =>
    intro s
    obtain ⟨e1, he1⟩ := on_progress_log_lines_extend wlExc s e
    obtain ⟨e2, he2⟩ := ih (on_progress wlExc s e)
    exact ⟨e1 ++ e2, by rw [processEvents_cons, he2, he1, List.append_assoc]⟩

theorem processEvents_done (wlExc : Nat → Bool) (evs : List Event) :
    ∀ s, (processEvents wlExc s evs).done = s.done + countFinished evs := by
  induction evs with
  | nil => intro s; simp [processEvents, countFinished]
  | cons e rest ih =>
    intro s
    rw [processEvents_cons, ih, on_progress_done, countFinished_cons]
    omega

/-! ## Driver-call and download-stage lemmas -/

theorem driveKind_exit (wlExc : Nat → Bool) (k : MediaKind) (dir : String)
    (nUrls : Nat) (events : List Event) (res : CallResult) (s : DLState) :
    (driveKind wlExc k dir nUrls events res s).exit_code =
      if callFailed res = true then 1 else s.exit_code := by
  rcases res with n | m
  · by_cases hn : (n != 0) = true <;>
      simp [driveKind, callFailed, hn, processEvents_exit]
  · simp [driveKind, callFailed]

theorem driveKind_failed (wlExc : Nat → Bool) (k : MediaKind) (dir : String)
    (nUrls : Nat) (events : List Event) (res : CallResult) (s : DLState) :
    (driveKind wlExc k dir nUrls events res s).failed =
      s.failed + (if callFailed res = true then 1 else 0) := by
  rcases res with n | m
  · by_cases hn : (n != 0) = true <;>
      simp [driveKind, callFailed, hn, processEvents_failed]
  · simp [driveKind, callFailed, processEvents_failed]

theorem driveKind_done (wlExc : Nat → Bool) (k : MediaKind) (dir : String)
    (nUrls : Nat) (events : List Event) (res : CallResult) (s : DLState) :
    (driveKind wlExc k dir nUrls events res s).done =
      s.done + countFinished events := by
  rcases res with n | m
  · by_cases hn : (n != 0) = true <;>
      simp [driveKind, hn, processEvents_done]
  · simp [driveKind, processEvents_done]

theorem driveKind_calls (wlExc : Nat → Bool) (k : MediaKind) (dir : String)
    (nUrls : Nat) (events : List Event) (res : CallResult) (s : DLState) :
    (driveKind wlExc k dir nUrls events res s).calls = s.calls ++ [k] := by
  rcases res with n | m
  · by_cases hn : (n != 0) = true <;>
      simp [driveKind, hn, processEvents_calls]
  · simp [driveKind, processEvents_calls]

theorem driveKind_configs (wlExc : Nat → Bool) (k : MediaKind) (dir : String)
    (nUrls : Nat) (events : List Event) (res : CallResult) (s : DLState) :
    (driveKind wlExc k dir nUrls events res s).configs = s.configs ++ [k] := by
  rcases res with n | m
  · by_cases hn : (n != 0) = true <;>
      simp [driveKind, hn, processEvents_configs]
  · simp [driveKind, processEvents_configs]

theorem driveKind_log_path (wlExc : Nat → Bool) (k : MediaKind) (dir : String)
    (nUrls : Nat) (events : List Event) (res : CallResult) (s : DLState) :
    (driveKind wlExc k dir nUrls events res s).log.path = s.log.path := by
  rcases res with n | m
  · by_cases hn : (n != 0) = true <;>
      simp [driveKind, hn, processEvents_log_path]
  · simp [driveKind, processEvents_log_path]

theorem driveKind_log_lines_extend (wlExc : Nat → Bool) (k : MediaKind)
    (dir : String) (nUrls : Nat) (events : List Event) (res : CallResult)
    (s : DLState) :
    ∃ ext, (driveKind wlExc k dir nUrls events res s).log.lines =
      s.log.lines ++ ext := by
  have hbase := processEvents_log_lines_extend wlExc events
    { s with
      stdout := s.stdout ++
        ["[*] Download " ++ kindLabel k ++ " → " ++ dir ++ " (" ++
          toString nUrls ++ " bestanden)"],
      configs := s.configs ++ [k],
      calls := s.calls ++ [k] }
  obtain ⟨ext, hext⟩ := hbase
  rcases res with n | m
  · by_cases hn : (n != 0) = true
    · exact ⟨ext, by simpa [driveKind, hn] using hext⟩
    · exact ⟨ext, by simpa [driveKind, hn] using hext⟩
  · exact ⟨ext, by simpa [driveKind] using hext⟩

theorem downloadStage_exit (wlExc : Nat → Bool) (wantA wantV : Bool)
    (musicDir videoDir : String) (nUrls : Nat) (aevs vevs : List Event)
    (ar vr : CallResult) (s : DLState) :
    (downloadStage wlExc wantA wantV musicDir videoDir nUrls aevs vevs ar vr s).exit_code =
      if ((wantA && callFailed ar) || (wantV && callFailed vr)) = true then 1
      else s.exit_code := by
  cases wantA <;> cases wantV <;>
    cases hfa : callFailed ar <;> cases hfv : callFailed vr <;>
      simp [downloadStage, driveKind_exit, hfa, hfv]

theorem downloadStage_failed (wlExc : Nat → Bool) (wantA wantV : Bool)
    (musicDir videoDir : String) (nUrls : Nat) (aevs vevs : List Event)
    (ar vr : CallResult) (s : DLState) :
    (downloadStage wlExc wantA wantV musicDir videoDir nUrls aevs vevs ar vr s).failed =
      s.failed + (if (wantA && callFailed ar) = true then 1 else 0) +
        (if (wantV && callFailed vr) = true then 1 else 0) := by
  cases wantA <;> cases wantV <;>
    cases hfa : callFailed ar <;> cases hfv : callFailed vr <;>
      simp [downloadStage, driveKind_failed, hfa, hfv]

theorem downloadStage_done (wlExc : Nat → Bool) (wantA wantV : Bool)
    (musicDir videoDir : String) (nUrls : Nat) (aevs vevs : List Event)
    (ar vr : CallResult) (s : DLState) :
    (downloadStage wlExc wantA wantV musicDir videoDir nUrls aevs vevs ar vr s).done =
      s.done + (if wantA = true then countFinished aevs else 0) +
        (if wantV = true then countFinished vevs else 0) := by
  cases wantA <;> cases wantV <;>
    simp [downloadStage, driveKind_done]

theorem downloadStage_calls_both (wlExc : Nat → Bool)
    (musicDir videoDir : String) (nUrls : Nat) (aevs vevs : List Event)
    (ar vr : CallResult) (s : DLState) :
    (downloadStage wlExc true true musicDir videoDir nUrls aevs vevs ar vr s).calls =
      s.calls ++ [MediaKind.audio, MediaKind.video] := by
  simp [downloadStage, driveKind_calls]

theorem downloadStage_calls (wlExc : Nat → Bool) (wantA wantV : Bool)
    (musicDir videoDir : String) (nUrls : Nat) (aevs vevs : List Event)
    (ar vr : CallResult) (s : DLState) :
    (downloadStage wlExc wantA wantV musicDir videoDir nUrls aevs vevs ar vr s).calls =
      s.calls ++ (if wantA = true then [MediaKind.audio] else []) ++
        (if wantV = true then [MediaKind.video] else []) := by
  cases wantA <;> cases wantV <;> simp [downloadStage, driveKind_calls]

theorem downloadStage_log_path (wlExc : Nat → Bool) (wantA wantV : Bool)
    (musicDir videoDir : String) (nUrls : Nat) (aevs vevs : List Event)
    (ar vr : CallResult) (s : DLState) :
    (downloadStage wlExc wantA wantV musicDir videoDir nUrls aevs vevs ar vr s).log.path =
      s.log.path := by
  cases wantA <;> cases wantV <;>
    simp [downloadStage, driveKind_log_path]

theorem downloadStage_log_lines_extend (wlExc : Nat → Bool)
    (wantA wantV : Bool) (musicDir videoDir : String) (nUrls : Nat)
    (aevs vevs : List Event) (ar vr : CallResult) (s : DLState) :
    ∃ ext, (downloadStage wlExc wantA wantV musicDir videoDir nUrls aevs vevs ar vr s).log.lines =
      s.log.lines ++ ext := by
  cases wantA <;> cases wantV <;> simp only [downloadStage, if_true, if_false]
  · exact ⟨[], by simp⟩
  · exact driveKind_log_lines_extend wlExc MediaKind.video videoDir nUrls vevs vr s
  · exact driveKind_log_lines_extend wlExc MediaKind.audio musicDir nUrls aevs ar s
  · obtain ⟨e1, h1⟩ := driveKind_log_lines_extend wlExc MediaKind.audio musicDir
      nUrls aevs ar s
    obtain ⟨e2, h2⟩ := driveKind_log_lines_extend wlExc MediaKind.video videoDir
      nUrls vevs vr (driveKind wlExc MediaKind.audio musicDir nUrls aevs ar s)
    exact ⟨e1 ++ e2, by rw [h2, h1, List.append_assoc]⟩

/-! ## Main-flow lemmas -/

theorem mainRun_error_eq (fs : String → Option (List String))
    (dirs0 : List String) (a : Args) (ffmpeg : Bool) (now : String)
    (wlExc : Nat → Bool) (aevs vevs : List Event) (ar vr : CallResult)
    (msg : String) (h : collectLinks fs a = Except.error msg) :
    mainRun fs dirs0 a ffmpeg now wlExc aevs vevs ar vr =
      fileErrorTrace dirs0 msg := by
  unfold mainRun
  rw [h]

theorem mainRun_ok_eq (fs : String → Option (List String))
    (dirs0 : List String) (a : Args) (ffmpeg : Bool) (now : String)
    (wlExc : Nat → Bool) (aevs vevs : List Event) (ar vr : CallResult)
    (fl : List String) (h : collectLinks fs a = Except.ok fl) :
    mainRun fs dirs0 a ffmpeg now wlExc aevs vevs ar vr =
      (if (dedupe (fl ++ a.urls)).isEmpty = true then noUrlsTrace dirs0
       else mainDownload a (dedupe (fl ++ a.urls)) dirs0 ffmpeg now wlExc
         aevs vevs ar vr) := by
  unfold mainRun
  rw [h]

theorem mainDownload_reached (a : Args) (urls : List String)
    (dirs0 : List String) (ffmpeg : Bool) (now : String) (wlExc : Nat → Bool)
    (aevs vevs : List Event) (ar vr : CallResult) :
    (mainDownload a urls dirs0 ffmpeg now wlExc aevs vevs ar vr).reachedDownload
      = true := rfl

theorem mainDownload_exit (a : Args) (urls : List String)
    (dirs0 : List String) (ffmpeg : Bool) (now : String) (wlExc : Nat → Bool)
    (aevs vevs : List Event) (ar vr : CallResult) :
    (mainDownload a urls dirs0 ffmpeg now wlExc aevs vevs ar vr).exitCode =
      if ((want_audio a && callFailed ar) || (want_video a && callFailed vr)) = true
      then 1 else 0 := by
  simp only [mainDownload]
  rw [downloadStage_exit]

theorem mainRun_reached_eq (fs : String → Option (List String))
    (dirs0 : List String) (a : Args) (ffmpeg : Bool) (now : String)
    (wlExc : Nat → Bool) (aevs vevs : List Event) (ar vr : CallResult)
    (h : (mainRun fs dirs0 a ffmpeg now wlExc aevs vevs ar vr).reachedDownload = true) :
    ∃ fl, collectLinks fs a = Except.ok fl
      ∧ mainRun fs dirs0 a ffmpeg now wlExc aevs vevs ar vr =
          mainDownload a (dedupe (fl ++ a.urls)) dirs0 ffmpeg now wlExc
            aevs vevs ar vr := by
  rcases hc : collectLinks fs a with msg | fl
  · rw [mainRun_error_eq fs dirs0 a ffmpeg now wlExc aevs vevs ar vr msg hc] at h
    simp [fileErrorTrace] at h
  · refine ⟨fl, rfl, ?_⟩
    rw [mainRun_ok_eq fs dirs0 a ffmpeg now wlExc aevs vevs ar vr fl hc] at h ⊢
    by_cases he : (dedupe (fl ++ a.urls)).isEmpty = true
    · rw [if_pos he] at h
      simp [noUrlsTrace] at h
    · rw [if_neg he]

theorem write_twice_lines (wlExc : Nat → Bool) (ls : LogState) (x y : String)
    (hw : ∀ i, wlExc i = false) (hp : ls.path.isSome = true)
    (h0 : ls.lines = []) :
    (write_log wlExc (write_log wlExc ls x) y).lines =
      [pyRstrip x, pyRstrip y] := by
  rw [write_log_lines, write_log_lines, write_log_path, h0, hp, hw, hw]
  simp

theorem take_two_of_lead (x y : String) (e2 e3 : List String) :
    ((([x, y] ++ e2) ++ e3).take 2) = [x, y] := by
  simp [List.append_assoc]

theorem downloadStage_then_write_take2 (wlExc : Nat → Bool)
    (wantA wantV : Bool) (musicDir videoDir : String) (nUrls : Nat)
    (aevs vevs : List Event) (ar vr : CallResult) (s : DLState)
    (dline x y : String) (hls : s.log.lines = [x, y]) :
    (write_log wlExc
        (downloadStage wlExc wantA wantV musicDir videoDir nUrls aevs vevs
          ar vr s).log dline).lines.take 2 = [x, y] := by
  obtain ⟨e2, h2⟩ := downloadStage_log_lines_extend wlExc wantA wantV musicDir
    videoDir nUrls aevs vevs ar vr s
  obtain ⟨e3, h3⟩ := write_log_lines_extend wlExc
    (downloadStage wlExc wantA wantV musicDir videoDir nUrls aevs vevs ar vr s).log
    dline
  rw [h3, h2, hls]
  exact take_two_of_lead x y e2 e3

theorem want_audio_of_not_want_video (a : Args) (h : want_video a = false) :
    a.audio = true ∧ a.video = false := by
  cases hv : a.video <;> cases ha : a.audio <;>
    simp [want_video, hv, ha] at h ⊢

theorem logPath_isSome (a : Args) :
    (if want_video a = true then some (pathJoin a.video_dir "download_log.txt")
     else if want_audio a = true then some (pathJoin a.music_dir "download_log.txt")
     else none).isSome = true := by
  cases hv : a.video <;> cases ha : a.audio <;>
    simp [want_video, want_audio, hv, ha]

theorem mem_mkdir_p_self (dirs : List String) (d : String) :
    d ∈ mkdir_p dirs d := by
  by_cases h : d ∈ dirs <;> simp [mkdir_p, h]

theorem mem_mkdir_p_of_mem (dirs : List String) (d x : String)
    (h : x ∈ dirs) : x ∈ mkdir_p dirs d := by
  by_cases hd : d ∈ dirs <;> simp [mkdir_p, hd, h]

theorem mainDownload_created (a : Args) (urls : List String)
    (dirs0 : List String) (ffmpeg : Bool) (now : String) (wlExc : Nat → Bool)
    (aevs vevs : List Event) (ar vr : CallResult) :
    (mainDownload a urls dirs0 ffmpeg now wlExc aevs vevs ar vr).created =
      ensure_dirs dirs0 a.video_dir a.music_dir := rfl

theorem mainDownload_total (a : Args) (urls : List String)
    (dirs0 : List String) (ffmpeg : Bool) (now : String) (wlExc : Nat → Bool)
    (aevs vevs : List Event) (ar vr : CallResult) :
    (mainDownload a urls dirs0 ffmpeg now wlExc aevs vevs ar vr).total =
      urls.length := rfl

theorem mainDownload_logPath (a : Args) (urls : List String)
    (dirs0 : List String) (ffmpeg : Bool) (now : String) (wlExc : Nat → Bool)
    (aevs vevs : List Event) (ar vr : CallResult) :
    (mainDownload a urls dirs0 ffmpeg now wlExc aevs vevs ar vr).logPath =
      (if want_video a = true then some (pathJoin a.video_dir "download_log.txt")
       else if want_audio a = true then some (pathJoin a.music_dir "download_log.txt")
       else none) := by
  simp only [mainDownload]
  rw [write_log_path, downloadStage_log_path, write_log_path, write_log_path]

theorem mainDownload_logLines_take2 (a : Args) (urls : List String)
    (dirs0 : List String) (ffmpeg : Bool) (now : String) (wlExc : Nat → Bool)
    (aevs vevs : List Event) (ar vr : CallResult)
    (hw : ∀ i, wlExc i = false) :
    (mainDownload a urls dirs0 ffmpeg now wlExc aevs vevs ar vr).logLines.take 2 =
      [pyRstrip ("\n=== Session " ++ now ++ " ==="),
       pyRstrip ("URLs: " ++ toString urls.length)] := by
  simp only [mainDownload]
  refine downloadStage_then_write_take2 wlExc _ _ _ _ _ _ _ _ _ _ _ _ _ ?_
  exact write_twice_lines wlExc _ _ _ hw (logPath_isSome a) rfl

theorem mainDownload_calls (a : Args) (urls : List String)
    (dirs0 : List String) (ffmpeg : Bool) (now : String) (wlExc : Nat → Bool)
    (aevs vevs : List Event) (ar vr : CallResult) :
    (mainDownload a urls dirs0 ffmpeg now wlExc aevs vevs ar vr).calls =
      (if want_audio a = true then [MediaKind.audio] else []) ++
        (if want_video a = true then [MediaKind.video] else []) := by
  simp only [mainDownload]
  rw [downloadStage_calls]
  simp

theorem mainDownload_failed (a : Args) (urls : List String)
    (dirs0 : List String) (ffmpeg : Bool) (now : String) (wlExc : Nat → Bool)
    (aevs vevs : List Event) (ar vr : CallResult) :
    (mainDownload a urls dirs0 ffmpeg now wlExc aevs vevs ar vr).failed =
      (if (want_audio a && callFailed ar) = true then 1 else 0) +
        (if (want_video a && callFailed vr) = true then 1 else 0) := by
  simp only [mainDownload]
  rw [downloadStage_failed]
  simp

theorem mainDownload_done (a : Args) (urls : List String)
    (dirs0 : List String) (ffmpeg : Bool) (now : String) (wlExc : Nat → Bool)
    (aevs vevs : List Event) (ar vr : CallResult) :
    (mainDownload a urls dirs0 ffmpeg now wlExc aevs vevs ar vr).done =
      (if want_audio a = true then countFinished aevs else 0) +
        (if want_video a = true then countFinished vevs else 0) := by
  simp only [mainDownload]
  rw [downloadStage_done]
  simp

/-! ## Claim theorems: download stage, exit codes, logging -/

/-- C3: for every run that reaches the download stage, the overall exit
code is 1 exactly when at least one of the performed audio/video driver
calls returned non-zero or raised an exception, and 0 otherwise. -/
theorem exit_code_one_iff_driver_failure (fs : String → Option (List String))
    (dirs0 : List String) (a : Args) (ffmpeg : Bool) (now : String)
    (wlExc : Nat → Bool) (aevs vevs : List Event) (ar vr : CallResult)
    (h : (mainRun fs dirs0 a ffmpeg now wlExc aevs vevs ar vr).reachedDownload = true) :
    (mainRun fs dirs0 a ffmpeg now wlExc aevs vevs ar vr).exitCode =
      if ((want_audio a && callFailed ar) || (want_video a && callFailed vr)) = true
      then 1 else 0 := by
  obtain ⟨fl, hc, heq⟩ :=
    mainRun_reached_eq fs dirs0 a ffmpeg now wlExc aevs vevs ar vr h
  rw [heq, mainDownload_exit]

/-- Witness for C3 at a concrete run whose audio call returns 1. -/
theorem exit_code_one_iff_driver_failure_witness :
    (mainRun noFs [] argsBoth true "T" noExc [] []
        (CallResult.ret 1) (CallResult.ret 0)).exitCode =
      if ((want_audio argsBoth && callFailed (CallResult.ret 1)) ||
          (want_video argsBoth && callFailed (CallResult.ret 0))) = true
      then 1 else 0 :=
  exit_code_one_iff_driver_failure noFs [] argsBoth true "T" noExc [] []
    (CallResult.ret 1) (CallResult.ret 0) (by decide)

/-- C4: the done counter adds one per "finished" event and is not reset
between the audio and video passes; consequently, in a run with two URLs,
both kinds requested and both calls returning 0 (each pass signalling one
finished event per URL), the final summary reports done = 4 — so done = 2
is not guaranteed. -/
theorem done_counter_double_counts :
    (∀ (wlExc : Nat → Bool) (musicDir videoDir : String) (nUrls : Nat)
        (aevs vevs : List Event) (s : DLState),
      (downloadStage wlExc true true musicDir videoDir nUrls aevs vevs
          (CallResult.ret 0) (CallResult.ret 0) s).done =
        s.done + countFinished aevs + countFinished vevs)
    ∧ (mainRun noFs [] argsBoth true "T" noExc
        [finEv "f1", finEv "f2"] [finEv "f1", finEv "f2"]
        (CallResult.ret 0) (CallResult.ret 0)).done = 4
    ∧ ¬ (mainRun noFs [] argsBoth true "T" noExc
        [finEv "f1", finEv "f2"] [finEv "f1", finEv "f2"]
        (CallResult.ret 0) (CallResult.ret 0)).done = 2
    ∧ (mainRun noFs [] argsBoth true "T" noExc
        [finEv "f1", finEv "f2"] [finEv "f1", finEv "f2"]
        (CallResult.ret 0) (CallResult.ret 0)).exitCode = 0
    ∧ (mainRun noFs [] argsBoth true "T" noExc
        [finEv "f1", finEv "f2"] [finEv "f1", finEv "f2"]
        (CallResult.ret 0) (CallResult.ret 0)).stdout.getLast? =
        some "\n✅ Klaar: 4 gelukt, ❌ 0 mislukt." := by
  refine ⟨?_, by decide, by decide, by decide, by decide⟩
  intro wlExc musicDir videoDir nUrls aevs vevs s
  rw [downloadStage_done]
  simp

/-- C5: when both media kinds are requested, the driver calls happen
sequentially, audio then video; an audio failure (non-zero return or
exception) counts into failed and forces exit code 1, and the video call
is still performed. -/
theorem audio_failure_not_blocking (fs : String → Option (List String))
    (dirs0 : List String) (a : Args) (ffmpeg : Bool) (now : String)
    (wlExc : Nat → Bool) (aevs vevs : List Event) (ar vr : CallResult)
    (h : (mainRun fs dirs0 a ffmpeg now wlExc aevs vevs ar vr).reachedDownload = true)
    (ha : want_audio a = true) (hv : want_video a = true) :
    (mainRun fs dirs0 a ffmpeg now wlExc aevs vevs ar vr).calls =
      [MediaKind.audio, MediaKind.video]
    ∧ (mainRun fs dirs0 a ffmpeg now wlExc aevs vevs ar vr).failed =
      (if callFailed ar = true then 1 else 0) +
        (if callFailed vr = true then 1 else 0)
    ∧ (mainRun fs dirs0 a ffmpeg now wlExc aevs vevs ar vr).exitCode =
      if (callFailed ar || callFailed vr) = true then 1 else 0 := by
  obtain ⟨fl, hc, heq⟩ :=
    mainRun_reached_eq fs dirs0 a ffmpeg now wlExc aevs vevs ar vr h
  rw [heq, mainDownload_calls, mainDownload_failed, mainDownload_exit]
  simp [ha, hv]

/-- Witness for C5 at a concrete run whose audio call raises. -/
theorem audio_failure_not_blocking_witness :
    (mainRun noFs [] argsBoth true "T" noExc [] []
        (CallResult.exc "boom") (CallResult.ret 0)).calls =
      [MediaKind.audio, MediaKind.video]
    ∧ (mainRun noFs [] argsBoth true "T" noExc [] []
        (CallResult.exc "boom") (CallResult.ret 0)).failed =
      (if callFailed (CallResult.exc "boom") = true then 1 else 0) +
        (if callFailed (CallResult.ret 0) = true then 1 else 0)
    ∧ (mainRun noFs [] argsBoth true "T" noExc [] []
        (CallResult.exc "boom") (CallResult.ret 0)).exitCode =
      if (callFailed (CallResult.exc "boom") || callFailed (CallResult.ret 0)) = true
      then 1 else 0 :=
  audio_failure_not_blocking noFs [] argsBoth true "T" noExc [] []
    (CallResult.exc "boom") (CallResult.ret 0) (by decide) (by decide) (by decide)

/-- C6: with no link file and no positional URLs the run exits with
status 2, prints the usage help, and builds no configuration and performs
no driver call. -/
theorem no_urls_exits_two (fs : String → Option (List String))
    (dirs0 : List String) (a : Args) (ffmpeg : Bool) (now : String)
    (wlExc : Nat → Bool) (aevs vevs : List Event) (ar vr : CallResult)
    (h1 : a.file = none) (h2 : a.urls = []) :
    (mainRun fs dirs0 a ffmpeg now wlExc aevs vevs ar vr).exitCode = 2
    ∧ (mainRun fs dirs0 a ffmpeg now wlExc aevs vevs ar vr).helpPrinted = true
    ∧ (mainRun fs dirs0 a ffmpeg now wlExc aevs vevs ar vr).configs = []
    ∧ (mainRun fs dirs0 a ffmpeg now wlExc aevs vevs ar vr).calls = []
    ∧ (mainRun fs dirs0 a ffmpeg now wlExc aevs vevs ar vr).reachedDownload = false := by
  have hc : collectLinks fs a = Except.ok [] := by
    simp [collectLinks, h1]
  rw [mainRun_ok_eq fs dirs0 a ffmpeg now wlExc aevs vevs ar vr [] hc, h2]
  simp [noUrlsTrace, dedupe, dedupeAux]

/-- Witness for C6 at a concrete argument record with no file and no URLs. -/
theorem no_urls_exits_two_witness :
    (mainRun noFs [] { argsBoth with urls := [] } true "T" noExc [] []
        (CallResult.ret 0) (CallResult.ret 0)).exitCode = 2
    ∧ (mainRun noFs [] { argsBoth with urls := [] } true "T" noExc [] []
        (CallResult.ret 0) (CallResult.ret 0)).helpPrinted = true
    ∧ (mainRun noFs [] { argsBoth with urls := [] } true "T" noExc [] []
        (CallResult.ret 0) (CallResult.ret 0)).configs = []
    ∧ (mainRun noFs [] { argsBoth with urls := [] } true "T" noExc [] []
        (CallResult.ret 0) (CallResult.ret 0)).calls = []
    ∧ (mainRun noFs [] { argsBoth with urls := [] } true "T" noExc [] []
        (CallResult.ret 0) (CallResult.ret 0)).reachedDownload = false :=
  no_urls_exits_two noFs [] { argsBoth with urls := [] } true "T" noExc [] []
    (CallResult.ret 0) (CallResult.ret 0) (by decide) (by decide)

/-- C7: when the link file does not exist the run writes the error message
to stderr and exits with status 1 before building any configuration or
attempting any download. -/
theorem missing_file_exits_one (fs : String → Option (List String))
    (dirs0 : List String) (a : Args) (ffmpeg : Bool) (now : String)
    (wlExc : Nat → Bool) (aevs vevs : List Event) (ar vr : CallResult)
    (p : String) (h1 : a.file = some p) (h2 : fs p = none) :
    (mainRun fs dirs0 a ffmpeg now wlExc aevs vevs ar vr).exitCode = 1
    ∧ (mainRun fs dirs0 a ffmpeg now wlExc aevs vevs ar vr).stderr =
        ["[!] Bestand niet gevonden: " ++ p]
    ∧ (mainRun fs dirs0 a ffmpeg now wlExc aevs vevs ar vr).configs = []
    ∧ (mainRun fs dirs0 a ffmpeg now wlExc aevs vevs ar vr).calls = []
    ∧ (mainRun fs dirs0 a ffmpeg now wlExc aevs vevs ar vr).reachedDownload = false := by
  have hc : collectLinks fs a =
      Except.error ("[!] Bestand niet gevonden: " ++ p) := by
    simp [collectLinks, h1, h2]
  rw [mainRun_error_eq fs dirs0 a ffmpeg now wlExc aevs vevs ar vr _ hc]
  simp [fileErrorTrace]

/-- Witness for C7 at a concrete missing path. -/
theorem missing_file_exits_one_witness :
    (mainRun noFs [] { argsBoth with file := some "links.txt" } true "T" noExc
        [] [] (CallResult.ret 0) (CallResult.ret 0)).exitCode = 1
    ∧ (mainRun noFs [] { argsBoth with file := some "links.txt" } true "T" noExc
        [] [] (CallResult.ret 0) (CallResult.ret 0)).stderr =
        ["[!] Bestand niet gevonden: " ++ "links.txt"]
    ∧ (mainRun noFs [] { argsBoth with file := some "links.txt" } true "T" noExc
        [] [] (CallResult.ret 0) (CallResult.ret 0)).configs = []
    ∧ (mainRun noFs [] { argsBoth with file := some "links.txt" } true "T" noExc
        [] [] (CallResult.ret 0) (CallResult.ret 0)).calls = []
    ∧ (mainRun noFs [] { argsBoth with file := some "links.txt" } true "T" noExc
        [] [] (CallResult.ret 0) (CallResult.ret 0)).reachedDownload = false :=
  missing_file_exits_one noFs [] { argsBoth with file := some "links.txt" }
    true "T" noExc [] [] (CallResult.ret 0) (CallResult.ret 0) "links.txt"
    (by decide) (by decide)

/-- C8: on a "finished" progress event the hook increments done by one,
prints the line carrying the running count, the total and the resolved
filename, and appends that line (rstripped) to the log when a log path is
set and the write does not raise; a raising write changes nothing and is
swallowed (the hook is total for every exception oracle); events with any
other status leave everything unchanged. -/
theorem on_progress_finished_spec (wlExc : Nat → Bool) (s : DLState)
    (ev : Event) :
    (on_progress wlExc s ev).done =
      s.done + (if (ev.status == "finished") = true then 1 else 0)
    ∧ (on_progress wlExc s ev).stdout =
      s.stdout ++ (if (ev.status == "finished") = true
        then [finishMsg (s.done + 1) s.total ev] else [])
    ∧ (on_progress wlExc s ev).log.lines =
      s.log.lines ++
        (if ((ev.status == "finished") && s.log.path.isSome &&
            !wlExc s.log.writes) = true
         then [pyRstrip (finishMsg (s.done + 1) s.total ev)] else [])
    ∧ (on_progress wlExc s ev).failed = s.failed
    ∧ (on_progress wlExc s ev).exit_code = s.exit_code
    ∧ (on_progress wlExc s ev).log.path = s.log.path := by
  refine ⟨on_progress_done wlExc s ev, ?_, ?_, on_progress_failed wlExc s ev,
    on_progress_exit wlExc s ev, on_progress_log_path wlExc s ev⟩
  · by_cases hf : (ev.status == "finished") = true <;>
      simp [on_progress, hf]
  · by_cases hf : (ev.status == "finished") = true
    · simp only [on_progress, hf, if_true]
      rw [write_log_lines]
      simp [hf]
    · simp [on_progress, hf]

/-- C9: in every run that reaches the download stage and whose log writes
succeed, the session log is download_log.txt under the video directory
whenever video is wanted and under the music directory otherwise — and
the otherwise-case happens exactly when audio alone was requested; its
first two lines are the timestamped session header and the URL count. -/
theorem log_location_and_header (fs : String → Option (List String))
    (dirs0 : List String) (a : Args) (ffmpeg : Bool) (now : String)
    (wlExc : Nat → Bool) (aevs vevs : List Event) (ar vr : CallResult)
    (h : (mainRun fs dirs0 a ffmpeg now wlExc aevs vevs ar vr).reachedDownload = true)
    (hw : ∀ i, wlExc i = false) :
    (mainRun fs dirs0 a ffmpeg now wlExc aevs vevs ar vr).logPath =
      some (pathJoin (if want_video a = true then a.video_dir else a.music_dir)
        "download_log.txt")
    ∧ (want_video a = false → a.audio = true ∧ a.video = false)
    ∧ (mainRun fs dirs0 a ffmpeg now wlExc aevs vevs ar vr).logLines.take 2 =
      [pyRstrip ("\n=== Session " ++ now ++ " ==="),
       pyRstrip ("URLs: " ++ toString
        (mainRun fs dirs0 a ffmpeg now wlExc aevs vevs ar vr).total)] := by
  obtain ⟨fl, hc, heq⟩ :=
    mainRun_reached_eq fs dirs0 a ffmpeg now wlExc aevs vevs ar vr h
  rw [heq, mainDownload_logPath, mainDownload_total]
  refine ⟨?_, want_audio_of_not_want_video a, ?_⟩
  · by_cases hv : want_video a = true
    · simp [hv]
    · have hb := want_audio_of_not_want_video a (by simpa using hv)
      have ha : want_audio a = true := by simp [want_audio, hb.1]
      simp [hv, ha]
  · exact mainDownload_logLines_take2 a _ dirs0 ffmpeg now wlExc aevs vevs ar vr hw

/-- Witness for C9 at a concrete run requesting both kinds. -/
theorem log_location_and_header_witness :
    (mainRun noFs [] argsBoth true "T" noExc [] []
        (CallResult.ret 0) (CallResult.ret 0)).logPath =
      some (pathJoin
        (if want_video argsBoth = true then argsBoth.video_dir
         else argsBoth.music_dir) "download_log.txt")
    ∧ (want_video argsBoth = false →
        argsBoth.audio = true ∧ argsBoth.video = false)
    ∧ (mainRun noFs [] argsBoth true "T" noExc [] []
        (CallResult.ret 0) (CallResult.ret 0)).logLines.take 2 =
      [pyRstrip ("\n=== Session " ++ "T" ++ " ==="),
       pyRstrip ("URLs: " ++ toString
        (mainRun noFs [] argsBoth true "T" noExc [] []
          (CallResult.ret 0) (CallResult.ret 0)).total)] :=
  log_location_and_header noFs [] argsBoth true "T" noExc [] []
    (CallResult.ret 0) (CallResult.ret 0) (by decide) (fun i => rfl)

/-- C10: every run that reaches the download stage creates both output
directories (create-with-parents, no error when already present), even
when only one media kind was requested. -/
theorem both_dirs_created (fs : String → Option (List String))
    (dirs0 : List String) (a : Args) (ffmpeg : Bool) (now : String)
    (wlExc : Nat → Bool) (aevs vevs : List Event) (ar vr : CallResult)
    (h : (mainRun fs dirs0 a ffmpeg now wlExc aevs vevs ar vr).reachedDownload = true) :
    a.video_dir ∈ (mainRun fs dirs0 a ffmpeg now wlExc aevs vevs ar vr).created
    ∧ a.music_dir ∈ (mainRun fs dirs0 a ffmpeg now wlExc aevs vevs ar vr).created := by
  obtain ⟨fl, hc, heq⟩ :=
    mainRun_reached_eq fs dirs0 a ffmpeg now wlExc aevs vevs ar vr h
  rw [heq, mainDownload_created]
  simp only [ensure_dirs]
  exact ⟨mem_mkdir_p_of_mem _ _ _ (mem_mkdir_p_self dirs0 a.video_dir),
    mem_mkdir_p_self _ _⟩

/-- Witness for C10 at a concrete run requesting audio only. -/
theorem both_dirs_created_witness :
    argsAudioOnly.video_dir ∈
      (mainRun noFs [] argsAudioOnly true "T" noExc [] []
        (CallResult.ret 0) (CallResult.ret 0)).created
    ∧ argsAudioOnly.music_dir ∈
      (mainRun noFs [] argsAudioOnly true "T" noExc [] []
        (CallResult.ret 0) (CallResult.ret 0)).created :=
  both_dirs_created noFs [] argsAudioOnly true "T" noExc [] []
    (CallResult.ret 0) (CallResult.ret 0) (by decide)

end YoutubeDownload
